import Mathlib

/-!
# Verification of the HMLR memory-system core

Shallow embedding of the HMLR (Hierarchical Memory Lattice Retrieval)
conversational-memory engine.  The packaged sources contain the public
client (`hmlr/client.py`), the component factory
(`hmlr/core/component_factory.py`) and the LangChain adapter
(`hmlr/integrations/langchain.py`); those are embedded from their code.
The inner memory components (`memory.models.SlidingWindow`, the crawler,
the hydrator, the governor, the storage layer) are imported by the factory
but are not part of the packaged sources, so they are modelled from the
specification, as marked on each definition.
-/

namespace HMLR

/-- A conversation turn (spec §3 data model): day id, per-day sequence
number, role and text.  The record type lives in `memory.models`, outside
the packaged sources. -/
structure Turn where
  day_id : String
  sequence_no : Nat
  role : String
  text : String
deriving DecidableEq, Repr

/-- Modelled from the spec: `SlidingWindow.add_turn` of
`memory.models.SlidingWindow` (not in the packaged sources).  Spec §4.2:
"`add_turn(turn)`: appends; if resulting length exceeds capacity, evicts
oldest". -/
def addTurn (cap : Nat) (w : List Turn) (t : Turn) : List Turn :=
  let w2 := w ++ [t]
  if cap < w2.length then w2.drop (w2.length - cap) else w2

/-- Running a sequence of `add_turn` calls on an initially empty sliding
window of capacity `cap`. -/
def addTurns (cap : Nat) (ts : List Turn) : List Turn :=
  ts.foldl (addTurn cap) []

theorem addTurn_eq_drop (cap : Nat) (w : List Turn) (t : Turn) :
    addTurn cap w t = (w ++ [t]).drop ((w ++ [t]).length - cap) := by
  unfold addTurn
  simp only []
  split
  · rfl
  · next hc =>
      have hlen : (w ++ [t]).length - cap = 0 := by
        simp only [List.length_append, List.length_cons, List.length_nil] at *
        omega
      rw [hlen, List.drop_zero]

theorem addTurn_length_le (cap : Nat) (w : List Turn) (t : Turn) (h : w.length ≤ cap) :
    (addTurn cap w t).length ≤ cap := by
  rw [addTurn_eq_drop cap w t]
  simp only [List.length_drop, List.length_append, List.length_cons, List.length_nil]
  omega

theorem foldl_addTurn (cap : Nat) :
    ∀ (ts : List Turn) (w : List Turn), w.length ≤ cap →
      ts.foldl (addTurn cap) w = (w ++ ts).drop ((w ++ ts).length - cap)
  | [], w, h => by
      simp [Nat.sub_eq_zero_of_le h]
  | t :: ts, w, h => by
      rw [List.foldl_cons, foldl_addTurn cap ts (addTurn cap w t) (addTurn_length_le cap w t h)]
      rw [addTurn_eq_drop cap w t]
      have hk : (w ++ [t]).length - cap ≤ (w ++ [t]).length := Nat.sub_le _ _
      rw [← List.drop_append_of_le_length hk, List.drop_drop]
      have hassoc : (w ++ [t]) ++ ts = w ++ t :: ts := by simp
      rw [hassoc]
      congr 1
      simp only [List.length_drop, List.length_append, List.length_cons, List.length_nil]
      omega

theorem addTurns_eq_drop (cap : Nat) (ts : List Turn) :
    addTurns cap ts = ts.drop (ts.length - cap) := by
  have h := foldl_addTurn cap ts [] (by simp)
  simpa [addTurns] using h

/-- C2: for every sequence of `add_turn` calls on a `SlidingWindow` of
capacity `cap` whose length exceeds `cap`, the window holds exactly the
`cap` most recently added turns, in insertion order (the oldest turns,
i.e. the first `ts.length - cap` of them, are the ones evicted). -/
theorem slidingWindow_keeps_most_recent (cap : Nat) (ts : List Turn)
    (h : cap < ts.length) :
    addTurns cap ts = ts.drop (ts.length - cap) ∧
    (addTurns cap ts).length = cap := by
  refine ⟨addTurns_eq_drop cap ts, ?_⟩
  rw [addTurns_eq_drop cap ts]
  simp only [List.length_drop]
  omega

/-- A concrete turn used in witnesses. -/
def mkTurn (i : Nat) : Turn :=
  ⟨"day-1", i, "user", toString i⟩

/-- C2 witness: capacity 3, turns T1..T5 added in order, the window is
exactly [T3, T4, T5]. -/
theorem slidingWindow_keeps_most_recent_witness :
    3 < ([mkTurn 1, mkTurn 2, mkTurn 3, mkTurn 4, mkTurn 5] : List Turn).length ∧
    addTurns 3 [mkTurn 1, mkTurn 2, mkTurn 3, mkTurn 4, mkTurn 5] =
      [mkTurn 3, mkTurn 4, mkTurn 5] ∧
    (addTurns 3 [mkTurn 1, mkTurn 2, mkTurn 3, mkTurn 4, mkTurn 5]).length = 3 := by
  have h := slidingWindow_keeps_most_recent 3
    [mkTurn 1, mkTurn 2, mkTurn 3, mkTurn 4, mkTurn 5] (by simp)
  refine ⟨by simp, ?_, h.2⟩
  rw [h.1]
  rfl

/-! ## Context hydrator (spec §4.7) -/

/-- Prompt-ready context: ordered text blocks with a running token count
(spec §3 `HydratedContext`). -/
structure HydratedContext where
  blocks : List String
  tokenCount : Nat
deriving DecidableEq, Repr

/-- Modelled from the spec: one step of the hydrator's prioritized
inclusion under a hard token ceiling (the hydrator implementation,
`memory.retrieval.hmlr_hydrator.Hydrator`, is not in the packaged
sources).  A whole block is included when it fits the remaining budget
and dropped whole otherwise ("drop whole blocks ... rather than
truncating mid-text"). -/
def fitBlock (tok : String → Nat) (budget : Nat) (acc : HydratedContext)
    (b : String) : HydratedContext :=
  if acc.tokenCount + tok b ≤ budget then
    ⟨acc.blocks ++ [b], acc.tokenCount + tok b⟩
  else acc

/-- Modelled from the spec: `hydrate(sliding_window, retrieved_nodes,
profile_summary, token_budget)`.  Blocks are considered in the spec's
priority order — sliding-window turns, then retrieved nodes, then the
optional profile summary — and greedily included under the hard budget.
Token counting `tok` is the external tokenizer collaborator. -/
def hydrate (tok : String → Nat) (slidingWindow retrievedNodes : List String)
    (profileSummary : Option String) (budget : Nat) : HydratedContext :=
  let blocks := slidingWindow ++ retrievedNodes ++ profileSummary.toList
  blocks.foldl (fitBlock tok budget) ⟨[], 0⟩

theorem foldl_fitBlock_le (tok : String → Nat) (budget : Nat) :
    ∀ (bs : List String) (acc : HydratedContext), acc.tokenCount ≤ budget →
      (bs.foldl (fitBlock tok budget) acc).tokenCount ≤ budget
  | [], _, h => h
  | b :: bs, acc, h => by
      rw [List.foldl_cons]
      refine foldl_fitBlock_le tok budget bs (fitBlock tok budget acc b) ?_
      unfold fitBlock
      split
      · next hfit => simpa using hfit
      · exact h

theorem foldl_fitBlock_sum (tok : String → Nat) (budget : Nat) :
    ∀ (bs : List String) (acc : HydratedContext),
      acc.tokenCount = (acc.blocks.map tok).sum →
      (bs.foldl (fitBlock tok budget) acc).tokenCount =
        (((bs.foldl (fitBlock tok budget) acc).blocks).map tok).sum
  | [], _, h => h
  | b :: bs, acc, h => by
      rw [List.foldl_cons]
      refine foldl_fitBlock_sum tok budget bs (fitBlock tok budget acc b) ?_
      unfold fitBlock
      split
      · simp [h]
      · exact h

/-- C1: for every tokenizer, sliding-window contents, retrieved nodes,
optional profile summary and budget, the hydrated context's token count
is at most the budget; moreover the token count honestly equals the sum
of the token counts of the included blocks. -/
theorem hydrate_tokenCount_le_budget (tok : String → Nat)
    (sw rn : List String) (ps : Option String) (budget : Nat) :
    (hydrate tok sw rn ps budget).tokenCount ≤ budget ∧
    (hydrate tok sw rn ps budget).tokenCount =
      (((hydrate tok sw rn ps budget).blocks).map tok).sum := by
  constructor
  · exact foldl_fitBlock_le tok budget _ ⟨[], 0⟩ (Nat.zero_le _)
  · exact foldl_fitBlock_sum tok budget _ ⟨[], 0⟩ rfl

/-! ## Client state: clear_sliding_window (client.py lines 168-176) -/

/-- The client-visible mutable state: the in-memory sliding window and
the durable turn store. -/
structure ClientState where
  window : List Turn
  store : List Turn
deriving DecidableEq, Repr

/-- Modelled from the spec: `storage.get_recent_turns(day_id=None, limit)`
of the durable Turn Store (not in the packaged sources); spec §4.1: the
store is "queryable by recency", returning the most recent `limit` turns.
The store list is ordered oldest-first, so the most recent `limit` turns
are its final segment. -/
def getRecentTurns (store : List Turn) (limit : Nat) : List Turn :=
  store.drop (store.length - limit)

/-- From `hmlr/client.py` `clear_sliding_window` (line 175):
`self.components.sliding_window.turns.clear()` — it empties the
in-memory turn list and touches nothing else. -/
def clearSlidingWindow (s : ClientState) : ClientState :=
  { s with window := [] }

/-- C9: `clear_sliding_window()` empties the in-memory sliding window and
leaves the durable Turn Store unchanged; a subsequent recent-turns query
against the durable store returns exactly what it returned before. -/
theorem clearSlidingWindow_preserves_store (s : ClientState) (limit : Nat) :
    (clearSlidingWindow s).window = [] ∧
    (clearSlidingWindow s).store = s.store ∧
    getRecentTurns (clearSlidingWindow s).store limit =
      getRecentTurns s.store limit :=
  ⟨rfl, rfl, rfl⟩

/-! ## Startup sliding-window policy (component_factory.py lines 153-170) -/

/-- A Python exception value, as surfaced by the embedded code. -/
inductive PyError where
  | typeError (arg : String)
  | exception (msg : String)
deriving DecidableEq, Repr

/-- From `hmlr/core/component_factory.py` lines 153-170: the window is
loaded from the recovery file (`SlidingWindow.load_from_file()`, argument
`recovered`); only when it is empty does the factory query
`storage.get_recent_turns(day_id=None, limit=max_sliding_window_turns)`
(argument `dbFetch`, an `Except` because the call sits in a
`try/except`) and `add_turn` each result; a fetch failure is caught and
initialization proceeds with the window as-is. -/
def startupSlidingWindow (recovered : List Turn) (cap : Nat)
    (dbFetch : Except PyError (List Turn)) : List Turn :=
  if recovered.length = 0 then
    match dbFetch with
    | .ok ts => ts.foldl (addTurn cap) recovered
    | .error _ => recovered
  else recovered

theorem getRecentTurns_length_le (store : List Turn) (limit : Nat) :
    (getRecentTurns store limit).length ≤ limit := by
  unfold getRecentTurns
  simp only [List.length_drop]
  omega

theorem addTurns_of_length_le (cap : Nat) (ts : List Turn)
    (h : ts.length ≤ cap) : addTurns cap ts = ts := by
  rw [addTurns_eq_drop cap ts, Nat.sub_eq_zero_of_le h, List.drop_zero]

/-- C8: at startup the sliding window is the recovered state whenever
that state is non-empty (whatever the durable store would return); only
when the recovered window is empty is it backfilled with the most recent
`cap` turns from the durable store; and a backfill failure leaves the
window empty instead of aborting initialization (the function still
returns a window). -/
theorem startup_prefers_recovered (recovered : List Turn) (cap : Nat)
    (store : List Turn) (e : PyError) (hne : recovered ≠ []) :
    startupSlidingWindow recovered cap (.ok (getRecentTurns store cap)) =
      recovered ∧
    startupSlidingWindow recovered cap (.error e) = recovered ∧
    startupSlidingWindow [] cap (.ok (getRecentTurns store cap)) =
      getRecentTurns store cap ∧
    startupSlidingWindow [] cap (.error e) = [] := by
  have hlen : recovered.length ≠ 0 := by
    simpa [List.length_eq_zero] using hne
  refine ⟨?_, ?_, ?_, ?_⟩
  · simp [startupSlidingWindow, hlen]
  · simp [startupSlidingWindow, hlen]
  · show addTurns cap (getRecentTurns store cap) = getRecentTurns store cap
    exact addTurns_of_length_le cap _ (getRecentTurns_length_le store cap)
  · rfl

/-- C8 witness: a concrete non-empty recovered window is kept, an empty
one is backfilled from the store, and a database error does not abort. -/
theorem startup_prefers_recovered_witness :
    startupSlidingWindow [mkTurn 0] 3
        (.ok (getRecentTurns [mkTurn 1, mkTurn 2] 3)) = [mkTurn 0] ∧
    startupSlidingWindow [mkTurn 0] 3 (.error (.exception "db down")) =
      [mkTurn 0] ∧
    startupSlidingWindow [] 3 (.ok (getRecentTurns [mkTurn 1, mkTurn 2] 3)) =
      getRecentTurns [mkTurn 1, mkTurn 2] 3 ∧
    startupSlidingWindow [] 3 (.error (.exception "db down")) = [] :=
  startup_prefers_recovered [mkTurn 0] 3 [mkTurn 1, mkTurn 2]
    (.exception "db down") (by simp)

/-! ## HMLRClient construction (client.py lines 35-94,
component_factory.py lines 94-100) -/

/-- The keyword parameters declared by
`ComponentFactory.create_all_components` (component_factory.py lines
94-100): exactly these four — no `db_path` parameter and no `**kwargs`
catch-all. -/
def createAllComponentsParams : List String :=
  ["use_llm_intent_mode", "max_sliding_window_turns",
   "context_budget_tokens", "crawler_recency_weight"]

/-- Python keyword-argument binding for a function whose declared keyword
parameters are `declared`, with no `**kwargs` catch-all: the call raises
`TypeError` at the first keyword argument that is not a declared
parameter, and binds successfully otherwise. -/
def bindKwargs (declared : List String) : List String → Except PyError Unit
  | [] => .ok ()
  | k :: rest =>
      if k ∈ declared then bindKwargs declared rest
      else .error (.typeError k)

/-- The keyword arguments `HMLRClient.__init__` passes to
`ComponentFactory.create_all_components` (client.py lines 80-87):
`db_path` first, then the four configuration keywords, then whatever
extra `**kwargs` the caller supplied. -/
def clientFactoryCallKwargs (extra : List String) : List String :=
  "db_path" :: "use_llm_intent_mode" :: "context_budget_tokens" ::
    "max_sliding_window_turns" :: "crawler_recency_weight" :: extra

/-- A process environment: variable name to optional value. -/
def Env := String → Option String

/-- From `hmlr/client.py` `HMLRClient.__init__` (lines 35-94): the
constructor sets `os.environ["OPENAI_API_KEY"] = api_key` (line 72)
first, and only then calls
`ComponentFactory.create_all_components(db_path=..., ...)` (lines
80-87).  The result is the post-assignment environment together with
either a component-bundle marker or the Python exception the factory
call raised; on an exception no component is created. -/
def hmlrClientInit (env : Env) (apiKey : String) (extra : List String) :
    Env × Except PyError Unit :=
  let env2 : Env := fun k =>
    if k = "OPENAI_API_KEY" then some apiKey else env k
  (env2, bindKwargs createAllComponentsParams (clientFactoryCallKwargs extra))

theorem bindKwargs_dbPath (extra : List String) :
    bindKwargs createAllComponentsParams (clientFactoryCallKwargs extra) =
      .error (.typeError "db_path") := by
  simp [bindKwargs, clientFactoryCallKwargs, createAllComponentsParams]

/-- C3: every `HMLRClient.__init__` call — any api key, any extra keyword
arguments — passes `db_path` to `create_all_components`, whose signature
declares no such parameter and no `**kwargs`, so construction raises
`TypeError` on the `db_path` keyword and no component bundle is ever
produced. -/
theorem hmlrClientInit_always_typeError (env : Env) (apiKey : String)
    (extra : List String) :
    (hmlrClientInit env apiKey extra).2 = .error (.typeError "db_path") :=
  bindKwargs_dbPath extra

/-- C10: every `HMLRClient` construction sets the process-wide
`OPENAI_API_KEY` environment variable to the `api_key` argument before
the component-building step, overwriting whatever value it previously
held (the starting environment `env` is arbitrary, including ones where
the variable was already set). -/
theorem hmlrClientInit_sets_api_key (env : Env) (apiKey : String)
    (extra : List String) :
    (hmlrClientInit env apiKey extra).1 "OPENAI_API_KEY" = some apiKey := by
  simp [hmlrClientInit]

/-! ## Configuration validation at construction (C5) -/

/-- The configuration a `create_all_components` call threads, unchecked,
into the components it builds. -/
structure FactoryConfig where
  use_llm_intent_mode : Bool
  max_sliding_window_turns : Int
  context_budget_tokens : Int
  crawler_recency_weight : Rat
deriving DecidableEq, Repr

/-- From `hmlr/core/component_factory.py` `create_all_components` (lines
94-239): the four configuration arguments are threaded directly into the
component constructors (`IntentAnalyzer`, `LatticeCrawler`,
`ContextHydrator`, `Hydrator`, the sliding-window backfill limit) with no
range check anywhere in the body; with its external collaborator
constructors modelled as succeeding, the call accepts every argument
combination, valid or not. -/
def createAllComponents (useLlm : Bool) (maxTurns : Int) (budget : Int)
    (recencyWeight : Rat) : Except PyError FactoryConfig :=
  .ok ⟨useLlm, maxTurns, budget, recencyWeight⟩

/-- C5 counterexample: with a zero sliding-window capacity and a negative
context token budget, `create_all_components` does not fail — it builds
the components with exactly those invalid values, contradicting the
claim that every invalid value is rejected with an error at
construction. -/
theorem createAllComponents_accepts_invalid :
    createAllComponents false 0 (-1) (1/2) =
      Except.ok ⟨false, 0, -1, 1/2⟩ :=
  rfl

/-- C5 amended: no configuration validation happens at construction:
`create_all_components` accepts every value of every configuration
argument (in particular a negative token budget and a zero window
capacity) and builds components with those values unchanged, while
`HMLRClient.__init__` fails for every configuration — valid or invalid —
with the `TypeError` caused by the unexpected `db_path` keyword, not
with a validation error. -/
theorem createAllComponents_never_validates (useLlm : Bool)
    (maxTurns budget : Int) (recencyWeight : Rat) (env : Env)
    (apiKey : String) (extra : List String) :
    createAllComponents useLlm maxTurns budget recencyWeight =
      Except.ok ⟨useLlm, maxTurns, budget, recencyWeight⟩ ∧
    (hmlrClientInit env apiKey extra).2 = .error (.typeError "db_path") :=
  ⟨rfl, bindKwargs_dbPath extra⟩

/-! ## Crawler (spec §4.5), modelled from the spec -/

/-- A retrievable memory node (spec §3 `MemoryNode`): a turn or chunk,
uniformly addressable, with one embedding (abstracted behind the
similarity collaborator) and one recency timestamp. -/
structure MemoryNode where
  nid : Nat
  text : String
  timestamp : Nat
deriving DecidableEq, Repr

/-- A retrieval plan (spec §3 `RetrievalPlan`): the governor's ephemeral
decision. -/
structure RetrievalPlan where
  hop_count : Nat
  max_candidates : Nat
  score_threshold : Rat
deriving DecidableEq, Repr

/-- Modelled from the spec: the crawler's recency decay
(`memory.retrieval.crawler.LatticeCrawler` is not in the packaged
sources).  Spec §4.5 allows any monotonically non-increasing decay
bounded to [0,1]; this is the linear choice: weight 1 at age 0,
decreasing linearly to 0 at `horizon` and beyond. -/
def recencyDecay (horizon age : Nat) : Rat :=
  if horizon ≤ age then 0 else 1 - (age : Rat) / (horizon : Rat)

/-- Modelled from the spec: the crawler's score,
`score = (1 - w) * similarity + w * recency_decay(age)` (spec §4.5),
where `sim` is the external similarity collaborator for the current
query and `now - n.timestamp` is the node's age. -/
def nodeScore (w : Rat) (sim : MemoryNode → Rat) (horizon now : Nat)
    (n : MemoryNode) : Rat :=
  (1 - w) * sim n + w * recencyDecay horizon (now - n.timestamp)

/-- The crawler's ranking order: strictly higher score first; equal
scores prefer the more recent node (spec §4.5 tie-breaking). -/
def rankedBefore (w : Rat) (sim : MemoryNode → Rat) (horizon now : Nat)
    (a b : MemoryNode) : Prop :=
  nodeScore w sim horizon now b < nodeScore w sim horizon now a ∨
    (nodeScore w sim horizon now a = nodeScore w sim horizon now b ∧
      b.timestamp ≤ a.timestamp)

instance rankedBefore.instDecidableRel (w : Rat) (sim : MemoryNode → Rat)
    (horizon now : Nat) : DecidableRel (rankedBefore w sim horizon now) :=
  fun a b => by unfold rankedBefore; infer_instance

instance rankedBefore.instIsTotal (w : Rat) (sim : MemoryNode → Rat)
    (horizon now : Nat) : IsTotal MemoryNode (rankedBefore w sim horizon now) := by
  constructor
  intro a b
  rcases lt_trichotomy (nodeScore w sim horizon now a)
      (nodeScore w sim horizon now b) with h | h | h
  · exact Or.inr (Or.inl h)
  · rcases Nat.le_total b.timestamp a.timestamp with ht | ht
    · exact Or.inl (Or.inr ⟨h, ht⟩)
    · exact Or.inr (Or.inr ⟨h.symm, ht⟩)
  · exact Or.inl (Or.inl h)

instance rankedBefore.instIsTrans (w : Rat) (sim : MemoryNode → Rat)
    (horizon now : Nat) : IsTrans MemoryNode (rankedBefore w sim horizon now) := by
  constructor
  intro a b c hab hbc
  rcases hab with h1 | ⟨h1, t1⟩ <;> rcases hbc with h2 | ⟨h2, t2⟩
  · exact Or.inl (h2.trans h1)
  · exact Or.inl (h2 ▸ h1)
  · exact Or.inl (lt_of_lt_of_eq h2 h1.symm)
  · exact Or.inr ⟨h1.trans h2, Nat.le_trans t2 t1⟩

/-- Modelled from the spec: `crawler.search(query, plan)` over the
current index state.  Candidates below the plan's score threshold are
discarded, the rest are ranked by score with ties broken by recency,
and the candidate count is capped at the plan's `max_candidates`
(spec §4.5).  The query enters through the similarity collaborator
`sim`; the model is a total function, so an empty index yields an empty
result rather than an error. -/
def crawlerSearch (w : Rat) (sim : MemoryNode → Rat) (horizon now : Nat)
    (plan : RetrievalPlan) (index : List MemoryNode) : List MemoryNode :=
  (List.insertionSort (rankedBefore w sim horizon now)
      (index.filter fun n =>
        decide (plan.score_threshold ≤ nodeScore w sim horizon now n))).take
    plan.max_candidates

theorem recencyDecay_antitone (horizon : Nat) {a1 a2 : Nat} (h : a1 ≤ a2) :
    recencyDecay horizon a2 ≤ recencyDecay horizon a1 := by
  unfold recencyDecay
  by_cases h2 : horizon ≤ a2
  · by_cases h1 : horizon ≤ a1
    · simp [h1, h2]
    · have hh : 0 < (horizon : Rat) := by
        have : 0 < horizon := by omega
        exact_mod_cast this
      have hle : (a1 : Rat) / (horizon : Rat) ≤ 1 := by
        rw [div_le_one hh]
        exact_mod_cast Nat.le_of_lt (Nat.lt_of_not_le h1)
      simp only [h1, h2, if_true, if_false]
      linarith
  · have h1 : ¬ horizon ≤ a1 := by omega
    have hh : 0 < (horizon : Rat) := by
      have : 0 < horizon := by omega
      exact_mod_cast this
    have hle : (a1 : Rat) / (horizon : Rat) ≤ (a2 : Rat) / (horizon : Rat) := by
      gcongr
    simp only [h1, h2, if_false]
    linarith

theorem crawlerSearch_sorted (w : Rat) (sim : MemoryNode → Rat)
    (horizon now : Nat) (plan : RetrievalPlan) (index : List MemoryNode) :
    List.Sorted (rankedBefore w sim horizon now)
      (crawlerSearch w sim horizon now plan index) := by
  unfold crawlerSearch
  exact (List.sorted_insertionSort _ _).sublist (List.take_sublist _ _)

/-- C6: the crawler is deterministic — identical (similarity function =
query, plan, index-state) triples give identical ranked output; each
node's score is exactly `(1 - w) * similarity + w * recency_decay(age)`;
the recency decay is monotonically non-increasing in age; and any two
nodes of the result with equal score are ordered with the more recent
node first. -/
theorem crawlerSearch_deterministic_ranking (w : Rat)
    (sim sim2 : MemoryNode → Rat) (horizon now : Nat)
    (plan plan2 : RetrievalPlan) (index index2 : List MemoryNode)
    (n : MemoryNode) (a1 a2 : Nat) (hsim : sim = sim2)
    (hplan : plan = plan2) (hindex : index = index2) (hage : a1 ≤ a2) :
    crawlerSearch w sim horizon now plan index =
      crawlerSearch w sim2 horizon now plan2 index2 ∧
    nodeScore w sim horizon now n =
      (1 - w) * sim n + w * recencyDecay horizon (now - n.timestamp) ∧
    recencyDecay horizon a2 ≤ recencyDecay horizon a1 ∧
    List.Pairwise
      (fun a b => nodeScore w sim horizon now a = nodeScore w sim horizon now b →
        b.timestamp ≤ a.timestamp)
      (crawlerSearch w sim horizon now plan index) := by
  subst hsim hplan hindex
  refine ⟨rfl, rfl, recencyDecay_antitone horizon hage, ?_⟩
  refine (crawlerSearch_sorted w sim horizon now plan index).imp ?_
  intro a b hr heq
  rcases hr with h | ⟨_, hts⟩
  · exact absurd (heq ▸ h) (lt_irrefl _)
  · exact hts

/-- A concrete similarity collaborator used in witnesses. -/
def constSim : MemoryNode → Rat := fun _ => 1/2

/-- Concrete nodes and plan used in witnesses. -/
def nodeA : MemoryNode := ⟨1, "a", 5⟩

def nodeB : MemoryNode := ⟨2, "b", 9⟩

def demoPlan : RetrievalPlan := ⟨1, 5, 0⟩

/-- C6 witness: at recency weight 1/2, horizon 10, now 20, the two
concrete nodes have equal scores and the more recent one is ranked
first; the decay is non-increasing at concrete ages. -/
theorem crawlerSearch_deterministic_ranking_witness :
    recencyDecay 10 2 ≤ recencyDecay 10 1 ∧
    nodeScore (1/2) constSim 10 20 nodeA = nodeScore (1/2) constSim 10 20 nodeB ∧
    crawlerSearch (1/2) constSim 10 20 demoPlan [nodeA, nodeB] = [nodeB, nodeA] := by
  have h := crawlerSearch_deterministic_ranking (1/2) constSim constSim 10 20
    demoPlan demoPlan [nodeA, nodeB] [nodeA, nodeB] nodeA 1 2 rfl rfl rfl
    (by norm_num)
  have hA : nodeScore (1/2) constSim 10 20 nodeA = 1/4 := by
    norm_num [nodeScore, constSim, recencyDecay, nodeA]
  have hB : nodeScore (1/2) constSim 10 20 nodeB = 1/4 := by
    norm_num [nodeScore, constSim, recencyDecay, nodeB]
  have hnotAB : ¬ rankedBefore (1/2) constSim 10 20 nodeA nodeB := by
    unfold rankedBefore
    rw [hA, hB]
    simp [nodeA, nodeB]
  have hfA : demoPlan.score_threshold ≤ nodeScore (1/2) constSim 10 20 nodeA := by
    rw [hA]; norm_num [demoPlan]
  have hfB : demoPlan.score_threshold ≤ nodeScore (1/2) constSim 10 20 nodeB := by
    rw [hB]; norm_num [demoPlan]
  refine ⟨h.2.2.1, by rw [hA, hB], ?_⟩
  unfold crawlerSearch
  rw [List.filter_cons_of_pos (by simpa using hfA),
    List.filter_cons_of_pos (by simpa using hfB), List.filter_nil]
  simp only [List.insertionSort, List.orderedInsert]
  rw [if_neg hnotAB]
  rfl

/-- C7: crawler search over an empty index returns the empty sequence,
for every recency weight, similarity collaborator, clock and plan; the
model is a total function, so no error can be raised. -/
theorem crawlerSearch_empty_index (w : Rat) (sim : MemoryNode → Rat)
    (horizon now : Nat) (plan : RetrievalPlan) :
    crawlerSearch w sim horizon now plan [] = [] := by
  simp [crawlerSearch]

/-! ## Retrieval governor (spec §4.6), modelled from the spec -/

/-- The retrieval intents (spec §3 `Intent`). -/
inductive Intent where
  | recall
  | newTopic
  | clarification
  | multiHop
deriving DecidableEq, Repr

/-- Modelled from the spec: the governor's admission-control policy
(spec §4.6): continuation intents (clarification, new topic) and
low-confidence classifications get a zero-hop plan (the sliding window
suffices); explicit recall gets a single hop and multi-entity synthesis
a multi-hop plan, with candidate counts bounded by the remaining token
budget so retrieval effort never exceeds what hydration can use. -/
def governorPolicy (i : Intent) (confidence : Rat)
    (budgetRemaining : Nat) : RetrievalPlan :=
  if confidence < 1/2 then ⟨0, 0, 1⟩
  else
    match i with
    | .clarification => ⟨0, 0, 1⟩
    | .newTopic => ⟨0, 0, 1⟩
    | .recall => ⟨1, min 10 (budgetRemaining / 400), 1/2⟩
    | .multiHop => ⟨2, min 20 (budgetRemaining / 400), 1/2⟩

/-- The mutable state the governor could reach: the retrieval index and
a count of crawler invocations made so far. -/
structure GovState where
  crawlerInvocations : Nat
  indexNodes : List MemoryNode
deriving DecidableEq, Repr

/-- Modelled from the spec: `TheGovernor.decide(intent, confidence,
budget_remaining)` (`memory.retrieval.lattice.TheGovernor`, not in the
packaged sources; the factory hands it the crawler at construction).
Spec §4.6 makes it a pure decision function, embedded here as an
instrumented state transformer returning the plan, the state it leaves
behind, and the number of crawler invocations it performed itself. -/
def govDecide (i : Intent) (confidence : Rat) (budgetRemaining : Nat)
    (s : GovState) : RetrievalPlan × GovState × Nat :=
  (governorPolicy i confidence budgetRemaining, s, 0)

/-- C4: the governor's `decide` is side-effect-free: for every intent,
confidence, remaining budget and starting state it leaves the state
exactly as it found it and performs zero crawler invocations — it only
returns the plan the caller executes. -/
theorem govDecide_pure (i : Intent) (confidence : Rat)
    (budgetRemaining : Nat) (s : GovState) :
    (govDecide i confidence budgetRemaining s).2.1 = s ∧
    (govDecide i confidence budgetRemaining s).2.2 = 0 :=
  ⟨rfl, rfl⟩

end HMLR
